import Mathlib

/-!
Verification of the RAG core of the mcp-openfda server (src/rag-utils.ts and
the `aePipelineRag` orchestrator of src/index.ts) against its natural-language
specification.

Modelling conventions for the shallow embedding of the TypeScript source:
* a JavaScript string is modelled as a `List Char` (`Str`); all texts involved
  are BMP text, where JavaScript UTF-16 `length` agrees with the code-point
  count;
* JavaScript numbers that only ever hold integers are modelled as `Nat`/`Int`;
  the two floating-point operations `Math.log` and `Math.sqrt` are idealised as
  `Real.log`/`Real.sqrt` (scores are modelled as real numbers);
* `Array.prototype.slice` / `String.prototype.slice` with possibly negative
  indices are modelled by `jsSlice`;
* the JavaScript falsy test on optional strings (`undefined` and `""` are
  falsy) is modelled by `jsTruthyOptStr` / `jsOrStr`;
* character classes (`\s`, `\d`, `[A-Z]`) are modelled on their ASCII fragment,
  which is the fragment exercised by the data of this server.
-/

/-- Model of a JavaScript string: a list of characters. -/
abbrev Str := List Char

/-- ASCII fragment of the JavaScript `\s` class (also used by `trim`). -/
def isWs (c : Char) : Bool :=
  c = ' ' ∨ c = '\t' ∨ c = '\n' ∨ c = '\r' ∨ c = '\x0b' ∨ c = '\x0c'

/-- Model of `String.prototype.trim` (ASCII whitespace fragment). -/
def jsTrim (s : Str) : Str :=
  ((s.dropWhile isWs).reverse.dropWhile isWs).reverse

/-- Model of `String.prototype.toLowerCase` (ASCII fragment). -/
def toLowerStr (s : Str) : Str := s.map Char.toLower

/-- Model of the JavaScript falsy test for an optional string:
`undefined` and the empty string are falsy. -/
def jsTruthyOptStr : Option Str → Bool
  | none => false
  | some s => s ≠ []

/-- Model of `a || b` for an optional string `a` and a string default `b`. -/
def jsOrStr (a : Option Str) (b : Str) : Str :=
  match a with
  | some s => if s = [] then b else s
  | none => b

/-- Index clamping used by `Array.prototype.slice` / `String.prototype.slice`:
a negative index counts from the end, results are clamped to `[0, len]`. -/
def jsClampIndex (len : Nat) (i : Int) : Nat :=
  if i < 0 then (len + i).toNat else min i.toNat len

/-- Model of `l.slice(a, b)` for JavaScript arrays and strings. -/
def jsSlice (l : List α) (a b : Int) : List α :=
  (l.take (jsClampIndex l.length b)).drop (jsClampIndex l.length a)

/-- Model of `s.lastIndexOf(ch)` for a single-character needle: the largest
index holding `ch`, or `-1` when there is none. -/
def lastIndexOfChar (ch : Char) : Str → Int
  | [] => -1
  | c :: cs =>
    let r := lastIndexOfChar ch cs
    if 0 ≤ r then r + 1 else if c = ch then 0 else -1

/-- Model of `s.includes(sub)`: `sub` occurs contiguously in `s`. -/
def containsSub (s sub : Str) : Bool :=
  (List.range (s.length + 1)).any (fun i => sub.isPrefixOf (s.drop i))

/-- Maximal non-whitespace runs of a string, in order (helper for `splitWs`). -/
def nonWsRunsAux : Str → Str → List Str
  | cur, [] => if cur = [] then [] else [cur.reverse]
  | cur, c :: cs =>
    if isWs c then
      if cur = [] then nonWsRunsAux [] cs else cur.reverse :: nonWsRunsAux [] cs
    else nonWsRunsAux (c :: cur) cs

/-- True when the string starts with a whitespace character. -/
def startsWithWsB : Str → Bool
  | [] => false
  | c :: _ => isWs c

/-- Model of `s.split(/\s+/)`: the pieces between maximal whitespace runs.
As in JavaScript, a leading (resp. trailing) whitespace run contributes a
leading (resp. trailing) empty piece, and splitting the empty string yields
one empty piece. -/
def splitWs (s : Str) : List Str :=
  if s = [] then [[]]
  else
    (if startsWithWsB s then [[]] else [])
      ++ nonWsRunsAux [] s
      ++ (if startsWithWsB s.reverse then [[]] else [])

/-- Metadata record carried by a chunk.  The TypeScript source uses an open
`Record<string, any>`; this model declares the fields that the repository
reads or writes (`chunkIndex`/`start`/`end` written by `chunkText`,
`type`/`title` read by `extractCitations`, the rest written by the
orchestrator).  Fields not supplied behave as `undefined` (`none`). -/
structure ChunkMeta where
  type : Option Str := none
  title : Option Str := none
  drugName : Option Str := none
  manufacturer : Option Str := none
  hasWarnings : Option Bool := none
  hasAdverseReactions : Option Bool := none
  chunkIndex : Nat := 0
  start : Nat := 0
  «end» : Nat := 0
deriving Repr, DecidableEq

/-- Model of the `TextChunk` interface of rag-utils.ts.  `score` is optional
and real-valued (idealising the JavaScript float score). -/
structure TextChunk where
  id : Str
  text : Str
  source : Str
  metadata : ChunkMeta
  score : Option ℝ := none

/-- Candidate window end of one `chunkText` loop iteration:
`end = Math.min(start + chunkSize, text.length)`. -/
def chunkWindowEnd (text : Str) (chunkSize start : Nat) : Nat :=
  min (start + chunkSize) text.length

/-- Text payload of one `chunkText` loop iteration: the slice
`text.slice(start, end)`, truncated at the last `'.'` or `'\n'` when the
window does not reach the end of the text and the break point retains more
than 70% of `chunkSize` (the comparison `breakPoint > chunkSize * 0.7` is
modelled exactly on the rationals as `10 * breakPoint > 7 * chunkSize`). -/
def chunkPieceAt (text : Str) (chunkSize start : Nat) : Str :=
  let e := chunkWindowEnd text chunkSize start
  let piece := jsSlice text (start : Int) (e : Int)
  if e < text.length then
    let lastPeriod := lastIndexOfChar '.' piece
    let lastNewline := lastIndexOfChar '\n' piece
    let breakPoint := max lastPeriod lastNewline
    if 10 * breakPoint > 7 * (chunkSize : Int) then jsSlice piece 0 (breakPoint + 1)
    else piece
  else piece

/-- Chunk record pushed by one `chunkText` loop iteration: trimmed text,
id `` `${sourceId}_chunk_${chunkIndex}` ``, and metadata merged with
`{chunkIndex, start, end: start + chunkText.length}`. -/
def mkChunkAt (text : Str) (chunkSize : Nat) (sourceId : Str) (metadata : ChunkMeta)
    (start chunkIndex : Nat) : TextChunk :=
  let piece := chunkPieceAt text chunkSize start
  { id := sourceId ++ "_chunk_".data ++ (toString chunkIndex).data
    text := jsTrim piece
    source := sourceId
    metadata := { metadata with
      chunkIndex := chunkIndex
      start := start
      «end» := start + piece.length } }

/-- Cursor advance of one `chunkText` loop iteration:
`start += chunkText.length - overlap`, then, if that did not move the cursor
past the chunk's own start (`start <= chunks[last].metadata.start`, i.e.
`chunkText.length <= overlap`), force `start = metadata.start + chunkSize`. -/
def nextStartAt (text : Str) (chunkSize overlap start : Nat) : Nat :=
  let pieceLen := (chunkPieceAt text chunkSize start).length
  if pieceLen ≤ overlap then start + chunkSize else start + pieceLen - overlap

/-- Fuel-indexed model of the `while (start < text.length)` loop of
`chunkText`; returns `none` when the fuel runs out (the JavaScript loop would
still be running after that many iterations). -/
def chunkTextLoop (text : Str) (chunkSize overlap : Nat) (sourceId : Str)
    (metadata : ChunkMeta) : Nat → Nat → Nat → List TextChunk → Option (List TextChunk)
  | 0, _, _, _ => none
  | fuel + 1, start, chunkIndex, chunks =>
    if start < text.length then
      chunkTextLoop text chunkSize overlap sourceId metadata fuel
        (nextStartAt text chunkSize overlap start) (chunkIndex + 1)
        (chunks ++ [mkChunkAt text chunkSize sourceId metadata start chunkIndex])
    else some chunks

/-- Model of `chunkText` of rag-utils.ts.  The loop is run with fuel
`text.length + 1`; `chunkText_terminates` below shows this fuel is never
exhausted under the documented precondition `overlap < chunkSize`. -/
def chunkText (text : Str) (chunkSize : Nat := 1000) (overlap : Nat := 200)
    (sourceId : Str := []) (metadata : ChunkMeta := {}) : List TextChunk :=
  if text.length = 0 then []
  else (chunkTextLoop text chunkSize overlap sourceId metadata
    (text.length + 1) 0 0 []).getD []

/-- Characters that carry a special meaning in a JavaScript regular
expression.  `scoreChunkByQuery` feeds raw keywords to `new RegExp(keyword)`,
so keywords containing one of these are not matched literally. -/
def isRegexMeta (c : Char) : Bool :=
  c ∈ (['.', '*', '+', '?', '^', '$', '(', ')', '[', ']', '\x7b', '\x7d', '|', '\\'] : List Char)

/-- Single-token match of the regex fragment relevant to this repository:
`'.'` matches any character except a line terminator, every other character
matches itself.  (Keywords containing other metacharacters are outside the
fragment this model is faithful for; see `isRegexMeta`.) -/
def dotMatches (p c : Char) : Bool :=
  if p = '.' then ¬ (c = '\n' ∨ c = '\r' ∨ c = '\u2028' ∨ c = '\u2029') else p = c

/-- Match the pattern against a prefix of the text, returning the rest of the
text on success (regex fragment: literals and `'.'`). -/
def litDotMatch : Str → Str → Option Str
  | [], rest => some rest
  | _ :: _, [] => none
  | p :: ps, c :: cs => if dotMatches p c then litDotMatch ps cs else none

/-- Scanner state for counting non-overlapping regex matches: `skip` is the
number of characters still covered by the previous match.  Mirrors the
left-to-right, resume-after-match behaviour of `text.match(new RegExp(p, 'g'))`. -/
def jsGCountAux (pattern : Str) : Str → Nat → Nat
  | [], _ => 0
  | _ :: cs, skip + 1 => jsGCountAux pattern cs skip
  | c :: cs, 0 =>
    match litDotMatch pattern (c :: cs) with
    | some _ => 1 + jsGCountAux pattern cs (pattern.length - 1)
    | none => jsGCountAux pattern cs 0

/-- Number of matches of `text.match(new RegExp(pattern, 'g'))`, for patterns
inside the literal-and-dot fragment. -/
def jsGMatchCount (pattern text : Str) : Nat := jsGCountAux pattern text 0

/-- Modelled from the spec: number of non-overlapping, left-to-right substring
occurrences of `pattern` in the text ("count case-insensitive substring
occurrences in the chunk text", after both sides are lowercased). -/
def substrCountAux (pattern : Str) : Str → Nat → Nat
  | [], _ => 0
  | _ :: cs, skip + 1 => substrCountAux pattern cs skip
  | c :: cs, 0 =>
    if pattern.isPrefixOf (c :: cs) ∧ pattern ≠ [] then
      1 + substrCountAux pattern cs (pattern.length - 1)
    else substrCountAux pattern cs 0

/-- Modelled from the spec: non-overlapping substring occurrence count. -/
def substrOccCount (pattern text : Str) : Nat := substrCountAux pattern text 0

/-- Keyword list of `scoreChunkByQuery`: whitespace-split tokens of the
lowercased query plus the lowercased extra keywords, keeping only those of
length `> 2`. -/
def allKeywordsOf (query : Str) (extraKeywords : List Str) : List Str :=
  (splitWs (toLowerStr query) ++ extraKeywords.map toLowerStr).filter
    (fun k => 2 < k.length)

/-- Model of `scoreChunkByQuery` of rag-utils.ts.  Keyword occurrences are
counted by `text.match(new RegExp(keyword, 'g'))`, i.e. the keyword is
interpreted as a regular expression (`jsGMatchCount`); each occurrence
contributes `matches * Math.log(1 + keyword.length)`; a full-phrase
containment adds `queryLower.length * 2`; the total is divided by
`Math.sqrt(text.length)`. -/
noncomputable def scoreChunkByQuery (chunk : TextChunk) (query : Str)
    (extraKeywords : List Str := []) : ℝ :=
  let text := toLowerStr chunk.text
  let queryLower := toLowerStr query
  let allKeywords := allKeywordsOf query extraKeywords
  let score : ℝ := allKeywords.foldl
    (fun score keyword =>
      let matchCount := jsGMatchCount keyword text
      if 0 < matchCount then
        score + (matchCount : ℝ) * Real.log (1 + (keyword.length : ℝ))
      else score) 0
  let score := if containsSub text queryLower then
      score + (queryLower.length : ℝ) * 2
    else score
  score / Real.sqrt (text.length : ℝ)

/-- Modelled from the spec (claim C5's reading of the scorer): identical to
`scoreChunkByQuery` except that each keyword's occurrences are counted as
plain substring occurrences (`substrOccCount`), not as regex matches, and the
per-keyword contributions are summed. -/
noncomputable def scoreChunkByQuerySubstrSpec (chunk : TextChunk) (query : Str)
    (extraKeywords : List Str := []) : ℝ :=
  let text := toLowerStr chunk.text
  let queryLower := toLowerStr query
  let kwScore : ℝ := ((allKeywordsOf query extraKeywords).map
    (fun keyword => (substrOccCount keyword text : ℝ)
      * Real.log (1 + (keyword.length : ℝ)))).sum
  let score := if containsSub text queryLower then
      kwScore + (queryLower.length : ℝ) * 2
    else kwScore
  score / Real.sqrt (text.length : ℝ)

/-- Score of a chunk as read by the sort comparator: `chunk.score || 0`. -/
noncomputable def jsScoreVal (c : TextChunk) : ℝ := c.score.getD 0

/-- Comparator order of `scoredChunks.sort((a, b) => (b.score||0) - (a.score||0))`:
`a` may precede `b` iff the comparator is `≤ 0` on `(a, b)`. -/
def scoreDescRel (a b : TextChunk) : Prop := jsScoreVal b ≤ jsScoreVal a

noncomputable instance : DecidableRel scoreDescRel := fun _ _ => Classical.propDecidable _

/-- Model of `rankAndPickTop` of rag-utils.ts: annotate every chunk with its
score, sort descending by score (JavaScript `sort` is stable; modelled by the
stable `insertionSort`), and return `slice(0, topK)`. -/
noncomputable def rankAndPickTop (chunks : List TextChunk) (query : Str)
    (topK : Int := 5) (extraKeywords : List Str := []) : List TextChunk :=
  let scoredChunks := chunks.map (fun chunk =>
    { chunk with score := some (scoreChunkByQuery chunk query extraKeywords) })
  let sorted := List.insertionSort scoreDescRel scoredChunks
  jsSlice sorted 0 topK

/-- Match of `/NCT\d+/` at the head of the text: `"NCT"` followed by a
maximal nonempty digit run; returns the match and the rest of the text. -/
def nctTryAt : Str → Option (Str × Str)
  | 'N' :: 'C' :: 'T' :: rest =>
    let ds := rest.takeWhile Char.isDigit
    if ds = [] then none
    else some ('N' :: 'C' :: 'T' :: ds, rest.dropWhile Char.isDigit)
  | _ => none

/-- Left-to-right non-overlapping scan for `/NCT\d+/g`; `skip` is the number
of characters still covered by the previous match. -/
def nctScan : Str → Nat → List Str
  | [], _ => []
  | _ :: cs, skip + 1 => nctScan cs skip
  | c :: cs, 0 =>
    match nctTryAt (c :: cs) with
    | some (m, _) => m :: nctScan cs (m.length - 1)
    | none => nctScan cs 0

/-- Model of `text.match(/NCT\d+/g) || []`. -/
def nctMatches (text : Str) : List Str := nctScan text 0

/-- Separator class `["\s:]` of the RxCUI pattern (ASCII fragment of `\s`). -/
def isRxcuiSep (c : Char) : Bool := c = '"' ∨ isWs c ∨ c = ':'

/-- Match of `/rxcui["\s:]+(\d+)/i` at the head of the text; returns the digit
run (which is what the source recovers via `match.match(/\d+/)`) and the rest
of the text after the whole match. -/
def rxcuiTryAt : Str → Option (Str × Str)
  | c1 :: c2 :: c3 :: c4 :: c5 :: rest =>
    if Char.toLower c1 = 'r' ∧ Char.toLower c2 = 'x' ∧ Char.toLower c3 = 'c'
        ∧ Char.toLower c4 = 'u' ∧ Char.toLower c5 = 'i' then
      let seps := rest.takeWhile isRxcuiSep
      let rest2 := rest.dropWhile isRxcuiSep
      let ds := rest2.takeWhile Char.isDigit
      if seps = [] ∨ ds = [] then none
      else some (ds, rest2.dropWhile Char.isDigit)
    else none
  | _ => none

/-- Left-to-right non-overlapping scan for `/rxcui["\s:]+(\d+)/gi`. -/
def rxcuiScan : Str → Nat → List Str
  | [], _ => []
  | _ :: cs, skip + 1 => rxcuiScan cs skip
  | c :: cs, 0 =>
    match rxcuiTryAt (c :: cs) with
    | some (ds, rest) => ds :: rxcuiScan cs ((c :: cs).length - rest.length - 1)
    | none => rxcuiScan cs 0

/-- Model of the digit groups recovered from `text.match(/rxcui["\s:]+(\d+)/gi)`. -/
def rxcuiMatches (text : Str) : List Str := rxcuiScan text 0

/-- Match of `/[A-Z]\d{2}[A-Z]{2}\d{2}/` at the head of the text. -/
def atcTryAt : Str → Option Str
  | a :: b :: c :: d :: e :: f :: g :: _ =>
    if a.isUpper ∧ b.isDigit ∧ c.isDigit ∧ d.isUpper ∧ e.isUpper ∧ f.isDigit ∧ g.isDigit
    then some [a, b, c, d, e, f, g] else none
  | _ => none

/-- Left-to-right non-overlapping scan for `/[A-Z]\d{2}[A-Z]{2}\d{2}/g`. -/
def atcScan : Str → Nat → List Str
  | [], _ => []
  | _ :: cs, skip + 1 => atcScan cs skip
  | c :: cs, 0 =>
    match atcTryAt (c :: cs) with
    | some m => m :: atcScan cs 6
    | none => atcScan cs 0

/-- Model of `text.match(/[A-Z]\d{2}[A-Z]{2}\d{2}/g) || []`. -/
def atcMatches (text : Str) : List Str := atcScan text 0

/-- Model of the citation records of rag-utils.ts: `{id, title?, type?}`. -/
structure Citation where
  id : Str
  title : Option Str := none
  type : Option Str := none
deriving Repr, DecidableEq

/-- One push of `extractCitations`: append the citation and record its id
unless the id has been seen. -/
def citeDedupStep (st : List Citation × List Str) (c : Citation) :
    List Citation × List Str :=
  if c.id ∈ st.2 then st else (st.1 ++ [c], st.2 ++ [c.id])

/-- Citations generated from the NCT ids of one chunk's text. -/
def nctCitationsOf (chunk : TextChunk) : List Citation :=
  (nctMatches chunk.text).map (fun nctId =>
    { id := nctId, type := some "clinical_trial".data })

/-- Citations generated from the RxCUI ids of one chunk's text. -/
def rxcuiCitationsOf (chunk : TextChunk) : List Citation :=
  (rxcuiMatches chunk.text).map (fun rid => { id := rid, type := some "rxnorm".data })

/-- Source-fallback citation of a chunk: id is the chunk's `source`, type is
`chunk.metadata?.type || 'document'`, title is `chunk.metadata?.title`. -/
def sourceCitationOf (chunk : TextChunk) : Citation :=
  { id := chunk.source
    type := some (jsOrStr chunk.metadata.type "document".data)
    title := chunk.metadata.title }

/-- Processing of one chunk inside `extractCitations`: its NCT citations,
then its RxCUI citations, then its source-fallback citation, each pushed
through the seen-id filter. -/
def extractCitationsStep (st : List Citation × List Str) (chunk : TextChunk) :
    List Citation × List Str :=
  citeDedupStep
    ((rxcuiCitationsOf chunk).foldl citeDedupStep
      ((nctCitationsOf chunk).foldl citeDedupStep st))
    (sourceCitationOf chunk)

/-- Model of `extractCitations` of rag-utils.ts. -/
def extractCitations (chunks : List TextChunk) : List Citation :=
  (chunks.foldl extractCitationsStep ([], [])).1

/-- Stream of all candidate citations of a chunk list, in emission order and
before id-deduplication (specification helper for claim C8). -/
def rawCitations (chunks : List TextChunk) : List Citation :=
  chunks.flatMap (fun chunk =>
    nctCitationsOf chunk ++ rxcuiCitationsOf chunk ++ [sourceCitationOf chunk])

/-- Modelled from the spec: keep the first citation of each id, in stream
order ("first occurrence wins on duplicate ids"). -/
def dedupFirstById (l : List Citation) : List Citation :=
  (l.foldl citeDedupStep ([], [])).1

/-- Context record `{query?, drug?, condition?}` passed to the summary
generators. -/
structure SummaryCtx where
  query : Option Str := none
  drug : Option Str := none
  condition : Option Str := none

/-- Header lines shared by all four summary generators: one line per supplied
(truthy) context field, in the order drug, condition, query. -/
def ctxHeaderLines (context : SummaryCtx) : Str :=
  (if jsTruthyOptStr context.drug then
    "**药物**: ".data ++ context.drug.getD [] ++ "\n".data else [])
  ++ (if jsTruthyOptStr context.condition then
    "**适应症**: ".data ++ context.condition.getD [] ++ "\n".data else [])
  ++ (if jsTruthyOptStr context.query then
    "**查询**: ".data ++ context.query.getD [] ++ "\n".data else [])

/-- Model of `.replace(/\n/g, ' ')`. -/
def replaceNewlines (s : Str) : Str := s.map (fun c => if c = '\n' then ' ' else c)

/-- Numbered chunk previews emitted by the summary generators: the first
`count` chunks, each capped at `cap` characters with newlines flattened,
rendered as `` `${idx + 1}. ${preview}...\n\n` ``. -/
def chunkPreviews (chunks : List TextChunk) (count cap : Nat) : Str :=
  ((jsSlice chunks 0 (count : Int)).enum.map (fun p =>
    (toString (p.1 + 1)).data ++ ". ".data
      ++ replaceNewlines (jsSlice p.2.text 0 (cap : Int)) ++ "...\n\n".data)).flatten

/-- Model of `generateClinicalTrialsSummary` of rag-utils.ts. -/
def generateClinicalTrialsSummary (chunks : List TextChunk) (context : SummaryCtx) : Str :=
  let studyIds := (chunks.flatMap (fun chunk => nctMatches chunk.text)).dedup
  let hasControlComparison := chunks.any (fun chunk =>
    containsSub (toLowerStr chunk.text) "placebo".data
      ∨ containsSub (toLowerStr chunk.text) "control".data)
  let aeKeywords : List Str :=
    ["adverse".data, "side effect".data, "toxicity".data, "safety".data,
     "不良事件".data, "副作用".data]
  let adverseEvents := aeKeywords.filter (fun keyword =>
    chunks.any (fun chunk => containsSub (toLowerStr chunk.text) (toLowerStr keyword)))
  "## 临床试验不良事件分析\n\n".data
  ++ ctxHeaderLines context
  ++ "**数据来源**: ".data ++ (toString chunks.length).data ++ " 个临床试验片段\n\n".data
  ++ "### 关键发现\n".data
  ++ "- 涉及研究数量: ".data ++ (toString studyIds.length).data ++ "\n".data
  ++ "- 包含对照组比较: ".data
  ++ (if hasControlComparison then "是".data else "否".data) ++ "\n".data
  ++ "- 不良事件相关性: ".data
  ++ (if 0 < adverseEvents.length then "是".data else "否".data) ++ "\n\n".data
  ++ "### 证据摘要\n".data
  ++ chunkPreviews chunks 3 200
  ++ "### 建议\n".data
  ++ "基于 ".data ++ (toString chunks.length).data
  ++ " 个相关片段的分析，建议进一步查看具体研究详情以获得完整的安全性评估。".data

/-- Model of `generateOpenFDASummary` of rag-utils.ts. -/
def generateOpenFDASummary (chunks : List TextChunk) (context : SummaryCtx) : Str :=
  let warnings := (chunks.filter (fun chunk =>
    containsSub (toLowerStr chunk.text) "warning".data
      ∨ containsSub (toLowerStr chunk.text) "警告".data)).length
  let adverseReactions := (chunks.filter (fun chunk =>
    containsSub (toLowerStr chunk.text) "adverse".data
      ∨ containsSub (toLowerStr chunk.text) "不良反应".data)).length
  let contraindications := (chunks.filter (fun chunk =>
    containsSub (toLowerStr chunk.text) "contraindication".data
      ∨ containsSub (toLowerStr chunk.text) "禁忌".data)).length
  let boxedWarning := (chunks.filter (fun chunk =>
    containsSub (toLowerStr chunk.text) "boxed".data
      ∨ containsSub (toLowerStr chunk.text) "黑框".data)).length
  "## FDA 药物标签安全信息\n\n".data
  ++ ctxHeaderLines context
  ++ "**数据来源**: ".data ++ (toString chunks.length).data ++ " 个 FDA 标签片段\n\n".data
  ++ "### 安全信息分类\n".data
  ++ "- 警告信息: ".data ++ (toString warnings).data ++ " 条\n".data
  ++ "- 不良反应: ".data ++ (toString adverseReactions).data ++ " 条\n".data
  ++ "- 禁忌症: ".data ++ (toString contraindications).data ++ " 条\n".data
  ++ "- 黑框警告: ".data ++ (toString boxedWarning).data ++ " 条\n\n".data
  ++ "### 重要安全信息\n".data
  ++ chunkPreviews chunks 3 200

/-- Model of `generateRxNavSummary` of rag-utils.ts. -/
def generateRxNavSummary (chunks : List TextChunk) (context : SummaryCtx) : Str :=
  let rxcuis := (chunks.flatMap (fun chunk => rxcuiMatches chunk.text)).dedup
  let atcCodes := (chunks.flatMap (fun chunk => atcMatches chunk.text)).dedup
  "## RxNav 药物术语信息\n\n".data
  ++ ctxHeaderLines context
  ++ "**数据来源**: ".data ++ (toString chunks.length).data ++ " 个 RxNav 术语片段\n\n".data
  ++ "### 术语信息统计\n".data
  ++ "- RxCUI 标识符: ".data ++ (toString rxcuis.length).data ++ " 个\n".data
  ++ "- ATC 分类代码: ".data ++ (toString atcCodes.length).data ++ " 个\n\n".data
  ++ "### 药物术语详情\n".data
  ++ chunkPreviews chunks 3 200

/-- Model of `generateGenericSummary` of rag-utils.ts. -/
def generateGenericSummary (chunks : List TextChunk) (context : SummaryCtx) : Str :=
  "## 信息摘要\n\n".data
  ++ ctxHeaderLines context
  ++ "**相关片段**: ".data ++ (toString chunks.length).data ++ " 个\n\n".data
  ++ "### 主要内容\n".data
  ++ chunkPreviews chunks 5 150

/-- Options record of `summarizeChunks`.  `maxLength` is an integer
JavaScript number, defaulted to `1200` when absent. -/
structure SummarizeOptions where
  source : Str
  query : Option Str := none
  drug : Option Str := none
  condition : Option Str := none
  maxLength : Option Int := none

/-- Model of `summarizeChunks` of rag-utils.ts: the not-found message for an
empty chunk list, otherwise dispatch on the source tag and truncate the
result to `maxLength - 3` characters plus `"..."` when it exceeds
`maxLength`. -/
def summarizeChunks (chunks : List TextChunk) (options : SummarizeOptions) : Str :=
  let maxLength : Int := options.maxLength.getD 1200
  if chunks.length = 0 then
    "未找到与查询相关的信息。查询: ".data
      ++ jsOrStr options.query (jsOrStr options.drug (jsOrStr options.condition "N/A".data))
  else
    let context : SummaryCtx :=
      { query := options.query, drug := options.drug, condition := options.condition }
    let summary :=
      if options.source = "clinicaltrials".data then
        generateClinicalTrialsSummary chunks context
      else if options.source = "openfda".data then generateOpenFDASummary chunks context
      else if options.source = "rxnav".data then generateRxNavSummary chunks context
      else generateGenericSummary chunks context
    if (summary.length : Int) > maxLength then
      jsSlice summary 0 (maxLength - 3) ++ "...".data
    else summary

/-- JavaScript field that may hold either a string or an array of strings
(the OpenFDA label sections are `string | string[]` at runtime; the source
dispatches on `Array.isArray`). -/
inductive LabelField where
  | str : Str → LabelField
  | arr : List Str → LabelField

/-- Truthiness of an optional label field: `undefined` and `""` are falsy,
arrays (even empty ones) are truthy. -/
def labelFieldTruthy : Option LabelField → Bool
  | none => false
  | some (.str s) => s ≠ []
  | some (.arr _) => true

/-- Text of a label section: the string itself, or the array joined with
`'\n'`. -/
def labelFieldText : LabelField → Str
  | .str s => s
  | .arr l => List.intercalate "\n".data l

/-- Model of the `openfda` sub-record of a label document (the fields the
source reads). -/
structure OpenFDAInfo where
  brand_name : Option (List Str) := none
  generic_name : Option (List Str) := none
  manufacturer_name : Option (List Str) := none
  substance_name : Option (List Str) := none
  spl_id : Option (List Str) := none

/-- Model of one OpenFDA label document (the fields the source reads). -/
structure LabelDoc where
  id : Option Str := none
  openfda : Option OpenFDAInfo := none
  indications_and_usage : Option LabelField := none
  dosage_and_administration : Option LabelField := none
  contraindications : Option LabelField := none
  warnings : Option LabelField := none
  boxed_warning : Option LabelField := none
  precautions : Option LabelField := none
  adverse_reactions : Option LabelField := none
  drug_interactions : Option LabelField := none

/-- Model of the OpenFDA API response consumed by the pipeline; `results` is
optional because the source guards with `!data.results`. -/
structure OpenFDAResponse where
  results : Option (List LabelDoc) := none

/-- Model of the search parameters handed to the fetch collaborator
(`makeRequest`). -/
structure DrugLabelSearchParams where
  search : Option Str := none
  count : Option Str := none
  skip : Nat := 0
  limit : Nat := 50
deriving Repr, DecidableEq

/-- Parsed input of the `ae_pipeline_rag` tool.  `filtersLimit` models
`params.filters?.limit`. -/
structure AEPipelineRAGParams where
  query : Option Str := none
  drug : Option Str := none
  condition : Option Str := none
  top_k : Int := 5
  filtersLimit : Option Nat := none

/-- Model of the `RAGResult` bundle of rag-utils.ts. -/
structure RAGResult where
  source : Str
  query : Option Str := none
  drug : Option Str := none
  condition : Option Str := none
  top_chunks : List TextChunk := []
  summary : Str := []
  citations : List Citation := []

/-- Model of `arr?.[0]`: the head of an optional array, `undefined` when the
array is absent or empty. -/
def optionHead (o : Option (List Str)) : Option Str := o.bind (fun l => l.get? 0)

/-- Model of `a || b` when both operands are optional strings. -/
def jsOrOpt (a b : Option Str) : Option Str := if jsTruthyOptStr a then a else b

/-- Model of `a || b` for an optional number `a` (`0` is falsy). -/
def jsOrNat (a : Option Nat) (b : Nat) : Nat :=
  match a with
  | some n => if n = 0 then b else n
  | none => b

/-- Section header plus section text of `extractLabelText`, or nothing when
the field is absent or falsy. -/
def sectionParts (header : Str) (field : Option LabelField) : List Str :=
  match field with
  | some v => if labelFieldTruthy (some v) then [header, labelFieldText v] else []
  | none => []

/-- Drug display name used by the orchestrator:
`label.openfda?.brand_name?.[0] || label.openfda?.generic_name?.[0] || 'Unknown Drug'`. -/
def labelDrugName (label : LabelDoc) : Str :=
  jsOrStr
    (jsOrOpt (optionHead (label.openfda.bind OpenFDAInfo.brand_name))
      (optionHead (label.openfda.bind OpenFDAInfo.generic_name)))
    "Unknown Drug".data

/-- Model of `extractLabelText` of index.ts: the non-empty sections of a
label joined with blank lines, prefixed by the drug and manufacturer lines. -/
def extractLabelText (label : LabelDoc) : Str :=
  let drugName := labelDrugName label
  let manufacturer := jsOrStr
    (optionHead (label.openfda.bind OpenFDAInfo.manufacturer_name))
    "Unknown Manufacturer".data
  let textParts : List Str :=
    ["Drug: ".data ++ drugName, "Manufacturer: ".data ++ manufacturer]
    ++ sectionParts "=== INDICATIONS AND USAGE ===".data label.indications_and_usage
    ++ sectionParts "=== DOSAGE AND ADMINISTRATION ===".data label.dosage_and_administration
    ++ sectionParts "=== CONTRAINDICATIONS ===".data label.contraindications
    ++ sectionParts "=== WARNINGS ===".data label.warnings
    ++ sectionParts "=== BOXED WARNING ===".data label.boxed_warning
    ++ sectionParts "=== PRECAUTIONS ===".data label.precautions
    ++ sectionParts "=== ADVERSE REACTIONS ===".data label.adverse_reactions
    ++ sectionParts "=== DRUG INTERACTIONS ===".data label.drug_interactions
  List.intercalate "\n\n".data textParts

/-- Name-alias disjunction the orchestrator builds for a drug name. -/
def mkDrugSearchTerm (d : Str) : Str :=
  "openfda.brand_name:\"".data ++ d ++ "\" OR openfda.generic_name:\"".data ++ d
    ++ "\" OR openfda.substance_name:\"".data ++ d ++ "\"".data

/-- Fixed bilingual safety boost keywords of the orchestrator. -/
def pipelineExtraKeywords : List Str :=
  ["adverse reactions".data, "side effects".data, "warnings".data,
   "contraindications".data, "boxed warning".data, "precautions".data,
   "safety".data, "toxicity".data,
   "不良反应".data, "副作用".data, "警告".data, "禁忌症".data, "安全性".data]

/-- Prompt-for-input summary returned when no search criterion is supplied. -/
def noCriteriaSummary : Str := "请提供药物名称或具体查询条件以获取 FDA 标签信息。".data

/-- No-match summary returned when the upstream returns zero documents. -/
def noMatchSummary : Str := "未找到匹配的 FDA 药物标签数据。请尝试调整搜索条件。".data

/-- Result bundle with empty chunk and citation lists, echoing the request
context fields. -/
def emptyBundle (params : AEPipelineRAGParams) (summary : Str) : RAGResult :=
  { source := "openfda".data
    query := params.query
    drug := params.drug
    condition := params.condition
    top_chunks := []
    summary := summary
    citations := [] }

/-- Chunks the orchestrator derives from one fetched label: the extracted
text, chunked with window 1000 and overlap 200, tagged with document-derived
metadata; empty when the extracted text is whitespace-only.  `randomId i`
models the `label_${Math.random()...}` fallback id for the `i`-th label. -/
def pipelineChunksOfLabel (randomId : Nat → Str) (i : Nat) (label : LabelDoc) :
    List TextChunk :=
  let labelText := extractLabelText label
  if 0 < (jsTrim labelText).length then
    let labelId := jsOrStr label.id
      (jsOrStr (optionHead (label.openfda.bind OpenFDAInfo.spl_id)) (randomId i))
    chunkText labelText 1000 200 labelId
      { drugName := some (labelDrugName label)
        manufacturer := optionHead (label.openfda.bind OpenFDAInfo.manufacturer_name)
        type := some "fda_label".data
        hasWarnings := some (labelFieldTruthy label.warnings
          ∨ labelFieldTruthy label.boxed_warning)
        hasAdverseReactions := some (labelFieldTruthy label.adverse_reactions) }
  else []

/-- Model of `aePipelineRag` of index.ts.  The external document fetch is an
injected function `fetch` (`makeRequest`); a fetch failure is an
`Except.error`, re-wrapped with the `RAG pipeline failed` prefix exactly as
the `catch` clause does.  `randomId` supplies the `Math.random()`-based
fallback label ids.  The JSON serialisation of the bundle performed by the
tool layer is outside this model. -/
noncomputable def aePipelineRag
    (fetch : DrugLabelSearchParams → Except Str OpenFDAResponse)
    (randomId : Nat → Str) (params : AEPipelineRAGParams) : Except Str RAGResult :=
  let searchTerms : List Str :=
    (if jsTruthyOptStr params.drug then [mkDrugSearchTerm (params.drug.getD [])] else [])
    ++ (if jsTruthyOptStr params.condition then
        ["indications_and_usage:\"".data ++ params.condition.getD [] ++ "\"".data]
      else [])
    ++ (if jsTruthyOptStr params.query then
        (let queryWords := (splitWs (params.query.getD [])).filter (fun w => 2 < w.length)
         if 0 < queryWords.length then [List.intercalate " AND ".data queryWords] else [])
      else [])
  let searchExpr : Option Str :=
    if 0 < searchTerms.length then some (List.intercalate " AND ".data searchTerms)
    else if jsTruthyOptStr params.drug then params.drug
    else none
  match searchExpr with
  | none => Except.ok (emptyBundle params noCriteriaSummary)
  | some search =>
    match fetch { search := some search, skip := 0, limit := jsOrNat params.filtersLimit 50 } with
    | Except.error e => Except.error ("RAG pipeline failed: ".data ++ e)
    | Except.ok data =>
      match data.results with
      | none => Except.ok (emptyBundle params noMatchSummary)
      | some results =>
        if results.length = 0 then Except.ok (emptyBundle params noMatchSummary)
        else
          let allChunks := results.enum.flatMap
            (fun p => pipelineChunksOfLabel randomId p.1 p.2)
          let queryText := List.intercalate " ".data
            (([params.query, params.drug, params.condition].filter
              jsTruthyOptStr).map (fun o => o.getD []))
          let topChunks := rankAndPickTop allChunks queryText params.top_k
            pipelineExtraKeywords
          let summary := summarizeChunks topChunks
            { source := "openfda".data
              query := params.query
              drug := params.drug
              condition := params.condition
              maxLength := some 1200 }
          Except.ok
            { source := "openfda".data
              query := params.query
              drug := params.drug
              condition := params.condition
              top_chunks := topChunks.map (fun chunk =>
                if 1200 < chunk.text.length then
                  { chunk with text := jsSlice chunk.text 0 1200 ++ "...".data }
                else chunk)
              summary := summary
              citations := extractCitations topChunks }

/-- Minimal chunk used by concrete witnesses and counterexamples. -/
def sampleChunk (t src : Str) : TextChunk :=
  { id := [], text := t, source := src, metadata := {} }

/-! ## Basic facts about the JavaScript string model -/

theorem jsClampIndex_natCast (len n : Nat) : jsClampIndex len (n : Int) = min n len := by
  simp [jsClampIndex]

theorem jsSlice_natCast (l : List α) (a b : Nat) :
    jsSlice l (a : Int) (b : Int) = (l.take b).drop a := by
  unfold jsSlice
  rw [jsClampIndex_natCast, jsClampIndex_natCast]
  rw [List.take_eq_take.mpr (show min b l.length ⊓ l.length = b ⊓ l.length by omega)]
  rcases le_total a l.length with h | h
  · rw [min_eq_left h]
  · rw [min_eq_right h,
      List.drop_eq_nil_of_le ((List.take_sublist _ _).length_le),
      List.drop_eq_nil_of_le (le_trans (List.take_sublist _ _).length_le h)]

theorem length_jsSlice (l : List α) (a b : Int) :
    (jsSlice l a b).length
      = min (jsClampIndex l.length b) l.length - jsClampIndex l.length a := by
  simp [jsSlice, List.length_drop, List.length_take]

theorem length_jsSlice_natCast (l : List α) (a b : Nat) :
    (jsSlice l (a : Int) (b : Int)).length = min b l.length - a := by
  rw [jsSlice_natCast]
  simp [List.length_drop, List.length_take]

theorem jsSlice_zero_nonneg (l : List α) (b : Int) (hb : 0 ≤ b) :
    jsSlice l 0 b = l.take b.toNat := by
  unfold jsSlice jsClampIndex
  have hb' : ¬ (b < 0) := not_lt.mpr hb
  simp only [hb', if_false, show ¬ ((0 : Int) < 0) from lt_irrefl 0, Int.toNat_zero,
    Int.toNat_ofNat]
  rw [List.take_eq_take.mpr (show min b.toNat l.length ⊓ l.length = b.toNat ⊓ l.length by omega)]
  simp

theorem length_jsSlice_le (l : List α) (a b : Int) : (jsSlice l a b).length ≤ l.length := by
  simp only [jsSlice, List.length_drop, List.length_take]
  omega

theorem jsTrim_length_le (s : Str) : (jsTrim s).length ≤ s.length := by
  unfold jsTrim
  calc ((s.dropWhile isWs).reverse.dropWhile isWs).reverse.length
      = ((s.dropWhile isWs).reverse.dropWhile isWs).length := List.length_reverse _
    _ ≤ (s.dropWhile isWs).reverse.length := (List.dropWhile_sublist _).length_le
    _ = (s.dropWhile isWs).length := List.length_reverse _
    _ ≤ s.length := (List.dropWhile_sublist _).length_le

theorem lastIndexOfChar_lt_length (ch : Char) (s : Str) :
    lastIndexOfChar ch s < (s.length : Int) := by
  induction s with
  | nil => simp [lastIndexOfChar]
  | cons c cs ih =>
    simp only [lastIndexOfChar, List.length_cons]
    split_ifs with h1 h2 <;> push_cast <;> omega

/-! ## Window facts for `chunkText` -/

theorem length_chunkPieceAt_le (text : Str) (cs s : Nat) :
    (chunkPieceAt text cs s).length ≤ cs := by
  simp only [chunkPieceAt, chunkWindowEnd]
  have hbase : (jsSlice text (s : Int) ((min (s + cs) text.length : Nat) : Int)).length ≤ cs := by
    rw [length_jsSlice_natCast]; omega
  split_ifs with h1 h2
  · exact le_trans (length_jsSlice_le _ _ _) hbase
  · exact hbase
  · exact hbase

theorem length_chunkPieceAt_at_end (text : Str) (cs s : Nat) (hend : text.length ≤ s + cs) :
    (chunkPieceAt text cs s).length = text.length - s := by
  simp only [chunkPieceAt, chunkWindowEnd]
  rw [min_eq_right hend, if_neg (lt_irrefl text.length), length_jsSlice_natCast]
  omega

theorem length_chunkPieceAt_win (text : Str) (cs s : Nat) (hwin : s + cs < text.length) :
    (chunkPieceAt text cs s).length = cs
      ∨ 7 * cs + 11 ≤ 10 * (chunkPieceAt text cs s).length := by
  simp only [chunkPieceAt, chunkWindowEnd]
  rw [min_eq_left (le_of_lt hwin), if_pos hwin]
  have hbase : (jsSlice text (s : Int) ((s + cs : Nat) : Int)).length = cs := by
    rw [length_jsSlice_natCast]; omega
  split_ifs with h2
  · right
    have hA := lastIndexOfChar_lt_length '.' (jsSlice text (s : Int) ((s + cs : Nat) : Int))
    have hB := lastIndexOfChar_lt_length '\n' (jsSlice text (s : Int) ((s + cs : Nat) : Int))
    rw [hbase] at hA hB
    rw [jsSlice_zero_nonneg _ _ (by omega), List.length_take, hbase]
    omega
  · left
    exact hbase

theorem chunkPieceAt_length_gt_overlap (text : Str) (cs ov s : Nat)
    (hwin : s + cs < text.length) (hov : ov < cs) (h07 : 10 * ov ≤ 7 * cs) :
    ov < (chunkPieceAt text cs s).length := by
  rcases length_chunkPieceAt_win text cs s hwin with h | h <;> omega

theorem nextStartAt_gt (text : Str) (cs ov s : Nat) (hcs : 1 ≤ cs) :
    s < nextStartAt text cs ov s := by
  simp only [nextStartAt]
  split_ifs with h <;> omega

/-! ## Loop invariants of `chunkText` -/

theorem chunkTextLoop_isSome (text : Str) (cs ov : Nat) (sid : Str) (md : ChunkMeta)
    (hcs : 1 ≤ cs) :
    ∀ fuel start idx acc, text.length - start < fuel →
      (chunkTextLoop text cs ov sid md fuel start idx acc).isSome = true := by
  intro fuel
  induction fuel with
  | zero => intro start idx acc h; omega
  | succ fuel ih =>
    intro start idx acc h
    rw [chunkTextLoop]
    by_cases hlt : start < text.length
    · rw [if_pos hlt]
      apply ih
      have := nextStartAt_gt text cs ov start hcs
      omega
    · rw [if_neg hlt]
      rfl

theorem chunkTextLoop_forall (text : Str) (cs ov : Nat) (sid : Str) (md : ChunkMeta)
    (P : TextChunk → Prop)
    (hstep : ∀ start idx, start < text.length → P (mkChunkAt text cs sid md start idx)) :
    ∀ fuel start idx acc res,
      chunkTextLoop text cs ov sid md fuel start idx acc = some res →
      (∀ c ∈ acc, P c) → ∀ c ∈ res, P c := by
  intro fuel
  induction fuel with
  | zero => intro start idx acc res hres; rw [chunkTextLoop] at hres; exact absurd hres (by simp)
  | succ fuel ih =>
    intro start idx acc res hres hacc
    rw [chunkTextLoop] at hres
    by_cases hlt : start < text.length
    · rw [if_pos hlt] at hres
      refine ih _ _ _ _ hres ?_
      intro c hc
      rcases List.mem_append.mp hc with h | h
      · exact hacc c h
      · rw [List.mem_singleton.mp h]
        exact hstep start idx hlt
    · rw [if_neg hlt] at hres
      obtain rfl : acc = res := Option.some.inj hres
      exact hacc

theorem chunkTextLoop_coverage (text : Str) (cs ov : Nat) (sid : Str) (md : ChunkMeta)
    (hov : ov < cs) (h07 : 10 * ov ≤ 7 * cs) :
    ∀ fuel start idx acc res,
      chunkTextLoop text cs ov sid md fuel start idx acc = some res →
      (∀ p, p < min start text.length →
        ∃ c ∈ acc, c.metadata.start ≤ p ∧ p < c.metadata.«end») →
      ∀ p, p < text.length → ∃ c ∈ res, c.metadata.start ≤ p ∧ p < c.metadata.«end» := by
  intro fuel
  induction fuel with
  | zero => intro start idx acc res hres; rw [chunkTextLoop] at hres; exact absurd hres (by simp)
  | succ fuel ih =>
    intro start idx acc res hres hacc
    rw [chunkTextLoop] at hres
    by_cases hlt : start < text.length
    · rw [if_pos hlt] at hres
      refine ih _ _ _ _ hres ?_
      intro p hp
      by_cases hps : p < start
      · obtain ⟨c, hc, h1, h2⟩ := hacc p (by omega)
        exact ⟨c, List.mem_append_left _ hc, h1, h2⟩
      · push_neg at hps
        refine ⟨mkChunkAt text cs sid md start idx,
          List.mem_append_right _ (List.mem_singleton_self _), ?_, ?_⟩
        · simpa [mkChunkAt] using hps
        · simp only [mkChunkAt]
          simp only [nextStartAt] at hp
          by_cases hforce : (chunkPieceAt text cs start).length ≤ ov
          · rw [if_pos hforce] at hp
            have hwin : ¬ (start + cs < text.length) := by
              intro hwin
              have := chunkPieceAt_length_gt_overlap text cs ov start hwin hov h07
              omega
            have hlen := length_chunkPieceAt_at_end text cs start (by omega)
            rw [hlen]
            omega
          · rw [if_neg hforce] at hp
            omega
    · rw [if_neg hlt] at hres
      obtain rfl : acc = res := Option.some.inj hres
      intro p hp
      exact hacc p (by omega)

theorem chunkText_eq_of_loop (text : Str) (cs ov : Nat) (sid : Str) (md : ChunkMeta)
    (res : List TextChunk) (h0 : text.length ≠ 0)
    (hres : chunkTextLoop text cs ov sid md (text.length + 1) 0 0 [] = some res) :
    chunkText text cs ov sid md = res := by
  unfold chunkText
  rw [if_neg h0, hres]
  rfl

/-- C1 (amended): for a non-empty text and `chunkSize > overlap ≥ 0` with, in
addition, `overlap ≤ 0.7 × chunkSize`, the spans `[metadata.start,
metadata.end)` of the chunks returned by `chunkText` cover every position of
`[0, text.length)`. -/
theorem chunkText_coverage_of_overlap_le (text : Str) (chunkSize overlap : Nat)
    (sourceId : Str) (metadata : ChunkMeta) (htext : text ≠ [])
    (hov : overlap < chunkSize) (h07 : 10 * overlap ≤ 7 * chunkSize)
    (p : Nat) (hp : p < text.length) :
    ∃ c ∈ chunkText text chunkSize overlap sourceId metadata,
      c.metadata.start ≤ p ∧ p < c.metadata.«end» := by
  have h0 : text.length ≠ 0 := fun h => htext (List.length_eq_zero.mp h)
  have hsome := chunkTextLoop_isSome text chunkSize overlap sourceId metadata (by omega)
    (text.length + 1) 0 0 [] (by omega)
  obtain ⟨res, hres⟩ := Option.isSome_iff_exists.mp hsome
  rw [chunkText_eq_of_loop text chunkSize overlap sourceId metadata res h0 hres]
  refine chunkTextLoop_coverage text chunkSize overlap sourceId metadata hov h07
    _ _ _ _ _ hres ?_ p hp
  intro q hq
  exact absurd hq (by omega)

/-- C1 witness: concrete instance of the amended coverage theorem. -/
theorem chunkText_coverage_witness :
    ∃ c ∈ chunkText "ab".data 2 0 [] {}, c.metadata.start ≤ 1 ∧ 1 < c.metadata.«end» :=
  chunkText_coverage_of_overlap_le "ab".data 2 0 [] {} (by decide) (by decide)
    (by decide) 1 (by decide)

/-- C1 counterexample: with text `"aaaaaaaa.bb"`, `chunkSize = 10` and
`overlap = 9` (so `chunkSize > overlap ≥ 0` as the claim requires), position 9
of the text lies in no chunk span: the forced-advance guard jumps the cursor
from 0 to 10 while the first chunk's span ends at 9. -/
theorem chunkText_gap_cex :
    9 < ("aaaaaaaa.bb".data : Str).length
    ∧ ((chunkText "aaaaaaaa.bb".data 10 9 [] {}).all
        (fun c => !(decide (c.metadata.start ≤ 9) && decide (9 < c.metadata.«end»))))
      = true := by decide

/-- C7: for every text and `0 ≤ overlap < chunkSize`, the `chunkText` loop
terminates within `text.length + 1` iterations (the fuelled loop never runs
out of fuel). -/
theorem chunkText_terminates (text : Str) (chunkSize overlap : Nat) (sourceId : Str)
    (metadata : ChunkMeta) (hov : overlap < chunkSize) :
    (chunkTextLoop text chunkSize overlap sourceId metadata
      (text.length + 1) 0 0 []).isSome = true :=
  chunkTextLoop_isSome text chunkSize overlap sourceId metadata (by omega)
    (text.length + 1) 0 0 [] (by omega)

/-- C7 witness: concrete instance of the termination theorem. -/
theorem chunkText_terminates_witness :
    (chunkTextLoop "ab".data 2 0 [] {} (("ab".data : Str).length + 1) 0 0 []).isSome
      = true :=
  chunkText_terminates "ab".data 2 0 [] {} (by decide)

/-- C2 (amended): every chunk's (trimmed) text length is at most `chunkSize`,
and every chunk whose span stops strictly before the end of the text has span
length `metadata.end - metadata.start ≥ 0.7 × chunkSize`.  The lower bound is
on the pre-trim span: trimmed text, as well as chunks whose span reaches the
end of the text (the final chunk, but with `overlap > 0` also some non-final
ones), are exempt. -/
theorem chunkText_size_bounds (text : Str) (chunkSize overlap : Nat) (sourceId : Str)
    (metadata : ChunkMeta) (c : TextChunk)
    (hc : c ∈ chunkText text chunkSize overlap sourceId metadata) :
    c.text.length ≤ chunkSize
    ∧ (c.metadata.«end» < text.length →
        7 * chunkSize ≤ 10 * (c.metadata.«end» - c.metadata.start)) := by
  unfold chunkText at hc
  by_cases h0 : text.length = 0
  · rw [if_pos h0] at hc
    exact absurd hc (List.not_mem_nil _)
  · rw [if_neg h0] at hc
    cases hres : chunkTextLoop text chunkSize overlap sourceId metadata
        (text.length + 1) 0 0 [] with
    | none =>
      rw [hres] at hc
      exact absurd hc (List.not_mem_nil _)
    | some res =>
      rw [hres] at hc
      simp only [Option.getD_some] at hc
      refine chunkTextLoop_forall text chunkSize overlap sourceId metadata
        (fun c => c.text.length ≤ chunkSize ∧ (c.metadata.«end» < text.length →
          7 * chunkSize ≤ 10 * (c.metadata.«end» - c.metadata.start))) ?_
        _ _ _ _ res hres (by intro c hc2; exact absurd hc2 (List.not_mem_nil _)) c hc
      intro s idx hs
      constructor
      · simp only [mkChunkAt]
        exact le_trans (jsTrim_length_le _) (length_chunkPieceAt_le text chunkSize s)
      · simp only [mkChunkAt]
        intro hend
        by_cases hwin : s + chunkSize < text.length
        · rcases length_chunkPieceAt_win text chunkSize s hwin with h | h <;> omega
        · have hlen := length_chunkPieceAt_at_end text chunkSize s (by omega)
          omega

/-- C2 witness: concrete instance of the size-bound theorem. -/
theorem chunkText_size_bounds_witness :
    (mkChunkAt "ab".data 2 [] {} 0 0).text.length ≤ 2
    ∧ ((mkChunkAt "ab".data 2 [] {} 0 0).metadata.«end» < ("ab".data : Str).length →
        7 * 2 ≤ 10 * ((mkChunkAt "ab".data 2 [] {} 0 0).metadata.«end»
          - (mkChunkAt "ab".data 2 [] {} 0 0).metadata.start)) :=
  chunkText_size_bounds "ab".data 2 0 [] {} _ (by
    have h : chunkText "ab".data 2 0 [] {} = [mkChunkAt "ab".data 2 [] {} 0 0] := rfl
    rw [h]
    exact List.mem_singleton_self _)

/-- C2 counterexample: with 19 characters of text, `chunkSize = 10` and
`overlap = 2` (so `chunkSize > overlap ≥ 0`), the emitted chunk text lengths
are `[10, 10, 3, 2]`: the third chunk is not the final one yet its length 3 is
below `0.7 × chunkSize = 7`. -/
theorem chunkText_short_nonfinal_cex :
    ((chunkText (List.replicate 19 'a') 10 2 [] {}).map (fun c => c.text.length))
      = [10, 10, 3, 2]
    ∧ 10 * 3 < 7 * 10 := by decide

/-! ## Summary length bound -/

theorem truncate_length_le (s : Str) (m : Int) (hm : 3 ≤ m) :
    (((if (s.length : Int) > m then jsSlice s 0 (m - 3) ++ "...".data else s) : Str).length : Int)
      ≤ m := by
  split_ifs with h
  · rw [List.length_append, jsSlice_zero_nonneg _ _ (by omega), List.length_take]
    have h3 : (("...".data : Str)).length = 3 := rfl
    rw [h3]
    omega
  · exact not_lt.mp h

/-- C3 (amended): for a non-empty chunk list and an effective `maxLength`
(defaulted to 1200) of at least 3, the summary returned by `summarizeChunks`
has length at most `maxLength`.  (For an empty chunk list the fixed not-found
message is returned regardless of `maxLength`, and for `maxLength < 3` the
truncation arithmetic `slice(0, maxLength - 3)` wraps around; both escape the
bound, see the counterexample.) -/
theorem summarizeChunks_length_le (chunks : List TextChunk) (options : SummarizeOptions)
    (hch : chunks ≠ []) (hmax : 3 ≤ options.maxLength.getD 1200) :
    ((summarizeChunks chunks options).length : Int) ≤ options.maxLength.getD 1200 := by
  have h0 : ¬ (chunks.length = 0) := fun h => hch (List.length_eq_zero.mp h)
  simp only [summarizeChunks, if_neg h0]
  exact truncate_length_le _ _ hmax

/-- C3 witness: concrete instance of the amended summary length bound. -/
theorem summarizeChunks_length_le_witness :
    ((summarizeChunks [sampleChunk "a".data []]
      { source := "x".data, maxLength := some 3 }).length : Int) ≤ 3 :=
  summarizeChunks_length_le _ _ (List.cons_ne_nil _ _) (by decide)

/-- C3 counterexample: with an empty chunk list and `maxLength = 1`,
`summarizeChunks` returns the fixed not-found message, whose length exceeds
`maxLength` — the length control is applied only on the non-empty branch. -/
theorem summarizeChunks_maxLength_cex :
    1 < (summarizeChunks [] { source := "openfda".data, maxLength := some 1 }).length := by
  decide

/-! ## Ranking bounds -/

theorem length_jsSlice_zero_nonneg_le (l : List α) (k : Int) (hk : 0 ≤ k) :
    ((jsSlice l 0 k).length : Int) ≤ k := by
  rw [length_jsSlice]
  have h0 : jsClampIndex l.length 0 = 0 := by simp [jsClampIndex]
  have h1 : jsClampIndex l.length k ≤ k.toNat := by
    simp only [jsClampIndex, if_neg (not_lt.mpr hk)]
    exact min_le_left _ _
  omega

theorem length_rankAndPickTop (chunks : List TextChunk) (query : Str) (topK : Int)
    (extra : List Str) :
    (rankAndPickTop chunks query topK extra).length
      = min (jsClampIndex chunks.length topK) chunks.length
        - jsClampIndex chunks.length 0 := by
  simp only [rankAndPickTop]
  rw [length_jsSlice, (List.perm_insertionSort _ _).length_eq, List.length_map]

/-- C6 (amended): `topK = 0` or an empty chunk list yields an empty result,
and for `topK ≥ 0` the result length is at most `topK`.  (For negative
`topK`, `slice(0, topK)` counts from the end of the array instead of
returning an empty sequence, see the counterexample.) -/
theorem rankAndPickTop_topK_bounds (chunks : List TextChunk) (query : Str) (topK : Int)
    (extraKeywords : List Str) :
    ((topK = 0 ∨ chunks = []) → rankAndPickTop chunks query topK extraKeywords = [])
    ∧ (0 ≤ topK →
        ((rankAndPickTop chunks query topK extraKeywords).length : Int) ≤ topK) := by
  constructor
  · rintro (rfl | rfl)
    · simp [rankAndPickTop, jsSlice, jsClampIndex]
    · simp [rankAndPickTop, jsSlice, jsClampIndex, List.insertionSort]
  · intro hk
    simp only [rankAndPickTop]
    exact length_jsSlice_zero_nonneg_le _ _ hk

/-- C6 witness: concrete instances of the amended bound. -/
theorem rankAndPickTop_topK_bounds_witness :
    rankAndPickTop [] "q".data 0 [] = []
    ∧ ((rankAndPickTop [sampleChunk "a".data []] "q".data 5 []).length : Int) ≤ 5 :=
  ⟨(rankAndPickTop_topK_bounds [] "q".data 0 []).1 (Or.inl rfl),
   (rankAndPickTop_topK_bounds [sampleChunk "a".data []] "q".data 5 []).2 (by decide)⟩

/-- C6 counterexample: with two chunks and `topK = -1 ≤ 0`, the result has
length 1, not 0 — `slice(0, -1)` drops only the last element. -/
theorem rankAndPickTop_negative_topK_cex :
    (rankAndPickTop [sampleChunk "a".data [], sampleChunk "b".data []] [] (-1) []).length
      = 1 := by
  rw [length_rankAndPickTop]
  decide

/-- C10: `rankAndPickTop` returns score-annotated copies: every returned
chunk is some input chunk with exactly its `score` field set to that chunk's
query score.  In this pure model the input list itself is a value and cannot
be mutated; this theorem expresses the intended frame property. -/
theorem rankAndPickTop_pure_copies (chunks : List TextChunk) (query : Str) (topK : Int)
    (extraKeywords : List Str) (r : TextChunk)
    (hr : r ∈ rankAndPickTop chunks query topK extraKeywords) :
    ∃ c ∈ chunks, r = { c with score := some (scoreChunkByQuery c query extraKeywords) } := by
  simp only [rankAndPickTop, jsSlice] at hr
  have h1 := List.mem_of_mem_take (List.mem_of_mem_drop hr)
  have h2 := ((List.perm_insertionSort scoreDescRel _).mem_iff).mp h1
  obtain ⟨c, hc, heq⟩ := List.mem_map.mp h2
  exact ⟨c, hc, heq.symm⟩

/-- C10 witness: concrete instance of the copy theorem. -/
theorem rankAndPickTop_pure_copies_witness :
    ∃ c ∈ [sampleChunk "warning".data "s".data],
      ({ sampleChunk "warning".data "s".data with
          score := some (scoreChunkByQuery (sampleChunk "warning".data "s".data)
            "warning".data []) } : TextChunk)
        = { c with score := some (scoreChunkByQuery c "warning".data []) } :=
  rankAndPickTop_pure_copies [sampleChunk "warning".data "s".data] "warning".data 1 [] _
    (by
      have h : rankAndPickTop [sampleChunk "warning".data "s".data] "warning".data 1 []
          = [{ sampleChunk "warning".data "s".data with
              score := some (scoreChunkByQuery (sampleChunk "warning".data "s".data)
                "warning".data []) }] := rfl
      rw [h]
      exact List.mem_singleton_self _)

/-! ## Citation extraction invariants -/

theorem citeDedupStep_snd_eq (st : List Citation × List Str)
    (hinv : st.2 = st.1.map Citation.id) (c : Citation) :
    (citeDedupStep st c).2 = (citeDedupStep st c).1.map Citation.id := by
  unfold citeDedupStep
  split_ifs with h
  · exact hinv
  · simp [hinv]

theorem foldl_citeDedup_snd_eq (l : List Citation) (st : List Citation × List Str)
    (hinv : st.2 = st.1.map Citation.id) :
    (l.foldl citeDedupStep st).2 = (l.foldl citeDedupStep st).1.map Citation.id := by
  induction l generalizing st with
  | nil => exact hinv
  | cons c cs ih => exact ih _ (citeDedupStep_snd_eq st hinv c)

theorem citeDedupStep_snd_nodup (st : List Citation × List Str) (hnd : st.2.Nodup)
    (c : Citation) : (citeDedupStep st c).2.Nodup := by
  unfold citeDedupStep
  split_ifs with h
  · exact hnd
  · simp [List.nodup_append, hnd, h]

theorem foldl_citeDedup_snd_nodup (l : List Citation) (st : List Citation × List Str)
    (hnd : st.2.Nodup) : (l.foldl citeDedupStep st).2.Nodup := by
  induction l generalizing st with
  | nil => exact hnd
  | cons c cs ih => exact ih _ (citeDedupStep_snd_nodup st hnd c)

theorem citeDedupStep_snd_subset (st : List Citation × List Str) (c : Citation) :
    st.2 ⊆ (citeDedupStep st c).2 := by
  unfold citeDedupStep
  split_ifs with h
  · exact fun x hx => hx
  · exact fun x hx => List.mem_append_left _ hx

theorem foldl_citeDedup_snd_subset (l : List Citation) (st : List Citation × List Str) :
    st.2 ⊆ (l.foldl citeDedupStep st).2 := by
  induction l generalizing st with
  | nil => exact fun x hx => hx
  | cons c cs ih => exact fun x hx => ih (citeDedupStep st c) (citeDedupStep_snd_subset st c hx)

theorem extractCitationsStep_eq (st : List Citation × List Str) (chunk : TextChunk) :
    extractCitationsStep st chunk
      = (nctCitationsOf chunk ++ rxcuiCitationsOf chunk
          ++ [sourceCitationOf chunk]).foldl citeDedupStep st := by
  simp [extractCitationsStep, List.foldl_append]

theorem foldl_extractCitationsStep_eq_raw (chunks : List TextChunk)
    (st : List Citation × List Str) :
    chunks.foldl extractCitationsStep st = (rawCitations chunks).foldl citeDedupStep st := by
  induction chunks generalizing st with
  | nil => rfl
  | cons c cs ih =>
    have hdec : rawCitations (c :: cs)
        = (nctCitationsOf c ++ rxcuiCitationsOf c ++ [sourceCitationOf c])
          ++ rawCitations cs := by
      simp [rawCitations]
    rw [List.foldl_cons, ih, extractCitationsStep_eq, hdec]
    simp [List.foldl_append]

theorem extractCitationsStep_source_mem_snd (st : List Citation × List Str)
    (chunk : TextChunk) : chunk.source ∈ (extractCitationsStep st chunk).2 := by
  unfold extractCitationsStep citeDedupStep
  split_ifs with h
  · exact h
  · simp [sourceCitationOf]

theorem foldl_extract_snd_subset (chunks : List TextChunk) (st : List Citation × List Str) :
    st.2 ⊆ (chunks.foldl extractCitationsStep st).2 := by
  induction chunks generalizing st with
  | nil => exact fun x hx => hx
  | cons c cs ih =>
    intro x hx
    rw [List.foldl_cons]
    apply ih
    rw [extractCitationsStep_eq]
    exact foldl_citeDedup_snd_subset _ _ hx

theorem source_mem_extract_snd (chunks : List TextChunk) (st : List Citation × List Str)
    (c : TextChunk) (hc : c ∈ chunks) :
    c.source ∈ (chunks.foldl extractCitationsStep st).2 := by
  obtain ⟨l1, l2, rfl⟩ := List.append_of_mem hc
  rw [List.foldl_append, List.foldl_cons]
  apply foldl_extract_snd_subset
  exact extractCitationsStep_source_mem_snd _ _

/-- C4 (amended): the source fallback is unconditional, not reserved for
chunks without structured identifiers: every chunk of the input contributes
its `source` as a citation id (deduplicated), whether or not its text yields
an NCT or RxCUI match. -/
theorem extractCitations_source_always (chunks : List TextChunk) (c : TextChunk)
    (hc : c ∈ chunks) :
    ∃ cit ∈ extractCitations chunks, cit.id = c.source := by
  have hsnd : (chunks.foldl extractCitationsStep ([], [])).2
      = (chunks.foldl extractCitationsStep ([], [])).1.map Citation.id := by
    rw [foldl_extractCitationsStep_eq_raw]
    exact foldl_citeDedup_snd_eq _ _ rfl
  have hmem := source_mem_extract_snd chunks ([], []) c hc
  rw [hsnd] at hmem
  obtain ⟨cit, hcit, hid⟩ := List.mem_map.mp hmem
  exact ⟨cit, hcit, hid⟩

/-- C4 witness: concrete instance of the unconditional-fallback theorem. -/
theorem extractCitations_source_always_witness :
    ∃ cit ∈ extractCitations [sampleChunk "NCT123".data "src1".data],
      cit.id = (sampleChunk "NCT123".data "src1".data).source :=
  extractCitations_source_always _ _ (List.mem_singleton_self _)

/-- C4 counterexample: a chunk whose text yields the structured identifier
`NCT123` still contributes a source-fallback citation (`src1`, tagged
`document`), contradicting the claim that chunks with a structured identifier
contribute no source-fallback citation. -/
theorem extractCitations_fallback_cex :
    nctMatches (sampleChunk "NCT123".data "src1".data).text = ["NCT123".data]
    ∧ extractCitations [sampleChunk "NCT123".data "src1".data]
      = [{ id := "NCT123".data, type := some "clinical_trial".data },
         { id := "src1".data, type := some "document".data }] := by
  decide

/-- C8: `extractCitations` returns no two citations with the same id, and
equals the raw citation stream (chunk order: NCT ids, RxCUI ids, then the
source fallback, per chunk) deduplicated by id with the first occurrence
winning. -/
theorem extractCitations_dedup_first_wins (chunks : List TextChunk) :
    ((extractCitations chunks).map Citation.id).Nodup
    ∧ extractCitations chunks = dedupFirstById (rawCitations chunks) := by
  have hraw : chunks.foldl extractCitationsStep ([], [])
      = (rawCitations chunks).foldl citeDedupStep ([], []) :=
    foldl_extractCitationsStep_eq_raw chunks ([], [])
  constructor
  · have hsnd := foldl_citeDedup_snd_eq (rawCitations chunks) ([], []) rfl
    have hnd : ((rawCitations chunks).foldl citeDedupStep ([], [])).2.Nodup :=
      foldl_citeDedup_snd_nodup _ _ List.nodup_nil
    rw [hsnd] at hnd
    unfold extractCitations
    rw [hraw]
    exact hnd
  · unfold extractCitations dedupFirstById
    rw [hraw]

/-! ## Scorer: regex-fragment matching versus substring counting -/

theorem litDotMatch_eq_isPrefixOf (p : Str) (hp : ∀ ch ∈ p, ch ≠ '.') (t : Str) :
    litDotMatch p t = if p.isPrefixOf t then some (t.drop p.length) else none := by
  induction p generalizing t with
  | nil => simp [litDotMatch, List.isPrefixOf]
  | cons a ps ih =>
    cases t with
    | nil => simp [litDotMatch, List.isPrefixOf]
    | cons c cs =>
      have ha : a ≠ '.' := hp a (List.mem_cons_self a ps)
      have hps : ∀ ch ∈ ps, ch ≠ '.' := fun ch hch => hp ch (List.mem_cons_of_mem a hch)
      by_cases hac : a = c
      · subst hac
        have hdma : dotMatches a a = true := by simp [dotMatches, ha]
        simp [litDotMatch, hdma, ih hps, List.isPrefixOf_cons₂, List.drop_succ_cons]
      · have hdma : dotMatches a c = false := by simp [dotMatches, ha, hac]
        simp [litDotMatch, hdma, List.isPrefixOf_cons₂, hac]

theorem jsGCountAux_eq_substrCountAux (p : Str) (hne : p ≠ []) (hp : ∀ ch ∈ p, ch ≠ '.') :
    ∀ t skip, jsGCountAux p t skip = substrCountAux p t skip := by
  intro t
  induction t with
  | nil => intro skip; cases skip <;> rfl
  | cons c cs ih =>
    intro skip
    cases skip with
    | succ k =>
      simp only [jsGCountAux, substrCountAux]
      exact ih k
    | zero =>
      simp only [jsGCountAux, substrCountAux]
      rw [litDotMatch_eq_isPrefixOf p hp (c :: cs)]
      by_cases hpre : p.isPrefixOf (c :: cs)
      · simp [hpre, hne, ih]
      · simp [hpre, ih]

theorem jsGMatchCount_eq_substrOccCount (p : Str) (hne : p ≠ [])
    (hp : ∀ ch ∈ p, ch ≠ '.') (t : Str) :
    jsGMatchCount p t = substrOccCount p t :=
  jsGCountAux_eq_substrCountAux p hne hp t 0

theorem score_foldl_eq_sum (cnt : Str → Nat) (kws : List Str) (a : ℝ) :
    kws.foldl (fun score keyword =>
      if 0 < cnt keyword then score + (cnt keyword : ℝ) * Real.log (1 + (keyword.length : ℝ))
      else score) a
    = a + (kws.map (fun keyword =>
        (cnt keyword : ℝ) * Real.log (1 + (keyword.length : ℝ)))).sum := by
  induction kws generalizing a with
  | nil => simp
  | cons k ks ih =>
    simp only [List.foldl_cons, List.map_cons, List.sum_cons]
    by_cases h : 0 < cnt k
    · rw [if_pos h, ih]
      ring
    · rw [if_neg h, ih]
      have h0 : cnt k = 0 := by omega
      rw [h0]
      push_cast
      ring

/-- C5 (amended): when every kept keyword is free of regex metacharacters
(so that `new RegExp(keyword)` matches it literally), `scoreChunkByQuery`
computes exactly the claimed score: the keyword set is the whitespace-split
lowercase query tokens plus lowercased extra keywords filtered to length
`> 2`, and each keyword contributes its non-overlapping substring occurrence
count times `log(1 + keywordLength)` (plus the phrase bonus, normalised by
`sqrt(textLength)`). -/
theorem scoreChunkByQuery_substr_of_literal (chunk : TextChunk) (query : Str)
    (extraKeywords : List Str)
    (h : ∀ k ∈ allKeywordsOf query extraKeywords, ∀ ch ∈ k, isRegexMeta ch = false) :
    scoreChunkByQuery chunk query extraKeywords
      = scoreChunkByQuerySubstrSpec chunk query extraKeywords := by
  have hkw : ∀ k ∈ allKeywordsOf query extraKeywords,
      jsGMatchCount k (toLowerStr chunk.text) = substrOccCount k (toLowerStr chunk.text) := by
    intro k hk
    have hlen : 2 < k.length := by simpa using (List.mem_filter.mp hk).2
    have hne : k ≠ [] := by
      intro hnil
      rw [hnil] at hlen
      simp at hlen
    have hdot : ∀ ch ∈ k, ch ≠ '.' := by
      intro ch hch heq
      have hmeta := h k hk ch hch
      rw [heq] at hmeta
      exact absurd hmeta (by decide)
    exact jsGMatchCount_eq_substrOccCount k hne hdot _
  simp only [scoreChunkByQuery, scoreChunkByQuerySubstrSpec]
  rw [score_foldl_eq_sum (fun k => jsGMatchCount k (toLowerStr chunk.text)) _ 0, zero_add]
  rw [List.map_congr_left (fun k hk => by rw [hkw k hk])]

/-- C5 witness: concrete instance of the amended scorer theorem. -/
theorem scoreChunkByQuery_substr_witness :
    scoreChunkByQuery (sampleChunk "warning warning".data "s".data) "warning".data []
      = scoreChunkByQuerySubstrSpec (sampleChunk "warning warning".data "s".data)
          "warning".data [] :=
  scoreChunkByQuery_substr_of_literal _ _ _ (by decide)

/-- C5 counterexample: with query `"..."` the single kept keyword is `"..."`;
`new RegExp("...", 'g')` matches any three characters, so the chunk text
`"abcdef"` scores `2 · log 4 / sqrt 6 ≠ 0`, while its substring occurrence
count (and hence the claimed score) is `0` — keywords are interpreted as
regular expressions, not as plain substrings. -/
theorem scoreChunkByQuery_regex_cex :
    scoreChunkByQuery (sampleChunk "abcdef".data "s".data) "...".data []
      ≠ scoreChunkByQuerySubstrSpec (sampleChunk "abcdef".data "s".data) "...".data [] := by
  have h1 : allKeywordsOf "...".data [] = ["...".data] := by decide
  have h2 : jsGMatchCount "...".data (toLowerStr (sampleChunk "abcdef".data "s".data).text)
      = 2 := by decide
  have h3 : substrOccCount "...".data (toLowerStr (sampleChunk "abcdef".data "s".data).text)
      = 0 := by decide
  have h4 : containsSub (toLowerStr (sampleChunk "abcdef".data "s".data).text)
      (toLowerStr "...".data) = false := by decide
  have h5 : (toLowerStr (sampleChunk "abcdef".data "s".data).text).length = 6 := by decide
  have h6 : (("...".data : Str)).length = 3 := by decide
  simp only [scoreChunkByQuery, scoreChunkByQuerySubstrSpec, h1, h2, h3, h4, h5, h6,
    List.foldl_cons, List.foldl_nil, List.map_cons, List.map_nil, List.sum_cons,
    List.sum_nil, Bool.false_eq_true, if_false]
  norm_num

/-! ## Orchestrator: no-criteria short circuit -/

/-- C9: when query, drug and condition are all absent, the pipeline returns —
for every fetch collaborator, i.e. without depending on (or invoking) it — an
`Except.ok` bundle whose summary is the prompt-for-input message and whose
chunk and citation lists are empty. -/
theorem aePipelineRag_no_criteria
    (fetch : DrugLabelSearchParams → Except Str OpenFDAResponse)
    (randomId : Nat → Str) (params : AEPipelineRAGParams)
    (hq : params.query = none) (hd : params.drug = none) (hc : params.condition = none) :
    aePipelineRag fetch randomId params
      = Except.ok { source := "openfda".data, query := none, drug := none,
                    condition := none, top_chunks := [], summary := noCriteriaSummary,
                    citations := [] } := by
  cases params with
  | mk q d cond tk fl =>
    obtain rfl : q = none := hq
    obtain rfl : d = none := hd
    obtain rfl : cond = none := hc
    simp [aePipelineRag, jsTruthyOptStr, emptyBundle]

/-- C9 witness: concrete instance with a fetch collaborator that would fail
if it were consulted. -/
theorem aePipelineRag_no_criteria_witness :
    aePipelineRag (fun _ => Except.error "unreachable".data) (fun _ => []) {}
      = Except.ok { source := "openfda".data, query := none, drug := none,
                    condition := none, top_chunks := [], summary := noCriteriaSummary,
                    citations := [] } :=
  aePipelineRag_no_criteria _ _ {} rfl rfl rfl
